import Mathlib

/-!
Shallow embedding of `scripts/fix-icon-padding.py` (FileCataloger repository).

The script reads an icon image, converts it to RGBA when its mode is not
already RGBA, computes the bounding box of its non-transparent content
(Pillow `Image.getbbox`, which on an RGBA image trims the pixels of zero
alpha), crops to that box, resizes the crop to
`content_size = int(1024 * 0.90) = 921` pixels square, pastes it - masked by
its own alpha channel, Pillow `Image.paste` with an RGBA mask - at offset
`(margin, margin)` with `margin = (1024 - 921) // 2 = 51` onto a fresh fully
transparent 1024 x 1024 RGBA canvas, and saves that canvas as PNG.  When the
image is fully transparent `getbbox` returns `None`, the function prints an
error and returns `False` without writing anything.

A pixel is a quadruple of naturals (each channel meaningful in `0..255`); an
image is a mode, a width, a height and a total pixel function (meaningful on
`[0, width) x [0, height)`).  The Lanczos resampling filter computes with
floating point and is therefore kept abstract: the pipeline takes the
resampling operation as a parameter, and theorems assume only what Pillow
documents and implements independently of the filter (the result has exactly
the requested size; resizing an image to its own size returns an unchanged
copy).  `nearestResample` is a concrete resampler used to instantiate those
hypotheses at concrete inputs.
-/

structure Pixel where
  r : Nat
  g : Nat
  b : Nat
  a : Nat
  deriving DecidableEq

inductive Mode where
  | RGB
  | RGBA
  | L
  deriving DecidableEq

@[ext]
structure Image where
  mode : Mode
  width : Nat
  height : Nat
  px : Nat → Nat → Pixel

/-- Model of Pillow `img.convert("RGBA")` for the source modes of the model
(`RGB`, `L`, both without an alpha channel or transparency information):
every pixel keeps its colour channels and becomes fully opaque
(`alpha = 255`). -/
def convert_RGBA (img : Image) : Image :=
  { img with mode := Mode.RGBA, px := fun x y => { img.px x y with a := 255 } }

/-- Lines 17-18 of the script: `if img.mode != 'RGBA': img = img.convert('RGBA')`. -/
def toRGBA (img : Image) : Image :=
  if img.mode = Mode.RGBA then img else convert_RGBA img

/-- Columns `x < width` holding at least one pixel of non-zero alpha. -/
def contentCols (img : Image) : Finset Nat :=
  (Finset.range img.width).filter fun x =>
    ∃ y ∈ Finset.range img.height, (img.px x y).a ≠ 0

/-- Rows `y < height` holding at least one pixel of non-zero alpha. -/
def contentRows (img : Image) : Finset Nat :=
  (Finset.range img.height).filter fun y =>
    ∃ x ∈ Finset.range img.width, (img.px x y).a ≠ 0

/-- Model of Pillow `Image.getbbox()` on an RGBA image (default
`alpha_only=True`): the bounding box `(left, upper, right, lower)` - right
and lower exclusive - of the pixels with non-zero alpha, or `None` when the
image is fully transparent. -/
def getbbox (img : Image) : Option (Nat × Nat × Nat × Nat) :=
  if h : (contentCols img).Nonempty ∧ (contentRows img).Nonempty then
    some ((contentCols img).min' h.1, (contentRows img).min' h.2,
      (contentCols img).max' h.1 + 1, (contentRows img).max' h.2 + 1)
  else none

/-- Model of Pillow `img.crop((l, u, r, lo))`: size `(r - l, lo - u)`, pixel
`(x, y)` taken from `(l + x, u + y)` of the source. -/
def crop (img : Image) (l u r lo : Nat) : Image :=
  { mode := img.mode, width := r - l, height := lo - u,
    px := fun x y => img.px (l + x) (u + y) }

/-- Line 29 of the script: `target_size = 1024`. -/
def target_size : Nat := 1024

/-- Line 30 of the script: `content_size = int(target_size * 0.90)`.  As a
double, `1024 * 0.90 = 921.6000000000000227...`, truncated by `int` to
`921`, which equals the integer computation `1024 * 90 / 100`. -/
def content_size : Nat := target_size * 90 / 100

/-- Line 39 of the script: `margin = (target_size - content_size) // 2`. -/
def margin : Nat := (target_size - content_size) / 2

/-- Pillow `MULDIV255(a, b)`: `(t + (t >> 8)) >> 8` with `t = a * b + 128`,
the rounded product `a * b / 255` used by `paste` when blending through a
mask value. -/
def muldiv255 (a b : Nat) : Nat :=
  (a * b + 128 + (a * b + 128) / 256) / 256

/-- Pillow `BLEND(mask, dst, src)`: a mask value of 255 copies the source,
0 keeps the destination, intermediate values mix proportionally. -/
def blend (m d s : Nat) : Nat :=
  muldiv255 d (255 - m) + muldiv255 s m

/-- Blend every channel of a destination pixel with a source pixel through a
mask value. -/
def blendPixel (m : Nat) (d s : Pixel) : Pixel :=
  { r := blend m d.r s.r, g := blend m d.g s.g,
    b := blend m d.b s.b, a := blend m d.a s.a }

/-- Model of Pillow `dst.paste(src, (ox, oy), mask)` with an RGBA mask image:
inside the pasted region every channel is blended through the alpha channel
of the mask pixel; outside it the destination is unchanged. -/
def paste (dst src : Image) (ox oy : Nat) (mask : Image) : Image :=
  { mode := dst.mode, width := dst.width, height := dst.height,
    px := fun x y =>
      if ox ≤ x ∧ x < ox + src.width ∧ oy ≤ y ∧ y < oy + src.height then
        blendPixel ((mask.px (x - ox) (y - oy)).a) (dst.px x y)
          (src.px (x - ox) (y - oy))
      else dst.px x y }

/-- Line 36 of the script: `Image.new('RGBA', (w, h), (0, 0, 0, 0))`, a fully
transparent canvas. -/
def image_new (w h : Nat) : Image :=
  { mode := Mode.RGBA, width := w, height := h, px := fun _ _ => ⟨0, 0, 0, 0⟩ }

/-- Output encoding passed to `final_img.save(output_path, 'PNG')`. -/
inductive ImageFormat where
  | PNG
  deriving DecidableEq

/-- Pillow `Image.resize((w, h), ...)` returns an image of exactly the
requested size, whatever the filter. -/
def SizeContract (resample : Image → Nat → Nat → Image) : Prop :=
  ∀ src w h, (resample src w h).width = w ∧ (resample src w h).height = h

/-- Pillow `Image.resize` short-circuits when the requested size equals the
current size and returns an unchanged copy, whatever the filter. -/
def SameSizeId (resample : Image → Nat → Nat → Image) : Prop :=
  ∀ src, 0 < src.width → 0 < src.height → resample src src.width src.height = src

/-- Concrete resampler (nearest-neighbour sampling), used to instantiate the
abstract resampling hypotheses at concrete inputs. -/
def nearestResample (src : Image) (w h : Nat) : Image :=
  { mode := src.mode, width := w, height := h,
    px := fun x y => src.px (x * src.width / w) (y * src.height / h) }

/-- The image built by the success branch of the script (lines 25-40): crop
to the bounding box, resize to `content_size` square, paste at
`(margin, margin)` onto a fresh transparent `target_size` canvas, the resized
content serving as its own paste mask. -/
def pipelineResult (resample : Image → Nat → Nat → Image) (img0 : Image)
    (l u r lo : Nat) : Image :=
  paste (image_new target_size target_size)
    (resample (crop (toRGBA img0) l u r lo) content_size content_size)
    margin margin
    (resample (crop (toRGBA img0) l u r lo) content_size content_size)

/-- Model of `fix_icon_padding(input_path, output_path)` (lines 10-50), the
input image standing for the decoded file at `input_path`:
`some (ImageFormat.PNG, out)` models the `return True` branch after
`final_img.save(output_path, 'PNG')` wrote `out`; `none` models the
`return False` branch, which writes nothing. -/
def fix_icon_padding (resample : Image → Nat → Nat → Image) (img0 : Image) :
    Option (ImageFormat × Image) :=
  match getbbox (toRGBA img0) with
  | some (l, u, r, lo) => some (ImageFormat.PNG, pipelineResult resample img0 l u r lo)
  | none => none

/-- The image has at least one pixel of non-zero alpha. -/
def hasAlphaContent (img : Image) : Prop :=
  ∃ x, x < img.width ∧ ∃ y, y < img.height ∧ (img.px x y).a ≠ 0

/-- Alpha left on the canvas by a self-masked paste of `img` over a fully
transparent destination: the source alpha blended through itself. -/
def maskedAlpha (img : Image) (x y : Nat) : Nat :=
  muldiv255 (img.px x y).a (img.px x y).a

/-- A 1 x 1 fully opaque white RGBA image. -/
def sample1 : Image :=
  { mode := Mode.RGBA, width := 1, height := 1,
    px := fun _ _ => ⟨255, 255, 255, 255⟩ }

/-- A 2 x 2 fully transparent RGBA image. -/
def transparent2 : Image :=
  { mode := Mode.RGBA, width := 2, height := 2, px := fun _ _ => ⟨0, 0, 0, 0⟩ }

/-- An all-black 2 x 2 RGB image (no alpha channel in this mode; the alpha field
of the model is set to 0 to show that conversion overrides it). -/
def blackRGB2 : Image :=
  { mode := Mode.RGB, width := 2, height := 2, px := fun _ _ => ⟨0, 0, 0, 0⟩ }

/-- A 512 x 512 RGBA image whose opaque content occupies the box
`(100, 100, 400, 400)` in the Pillow convention (right and lower exclusive),
transparent elsewhere. -/
def scenario512 : Image :=
  { mode := Mode.RGBA, width := 512, height := 512,
    px := fun x y =>
      if 100 ≤ x ∧ x < 400 ∧ 100 ≤ y ∧ y < 400 then ⟨255, 255, 255, 255⟩
      else ⟨0, 0, 0, 0⟩ }

/-- A 921 x 921 RGBA image, every pixel the half-transparent black
`(0, 0, 0, 128)`. -/
def gray921 : Image :=
  { mode := Mode.RGBA, width := 921, height := 921,
    px := fun _ _ => ⟨0, 0, 0, 128⟩ }

/-- Membership in `contentCols`, unfolded. -/
theorem mem_contentCols {img : Image} {x : Nat} :
    x ∈ contentCols img ↔
      x < img.width ∧ ∃ y, y < img.height ∧ (img.px x y).a ≠ 0 := by
  simp [contentCols]

/-- Membership in `contentRows`, unfolded. -/
theorem mem_contentRows {img : Image} {y : Nat} :
    y ∈ contentRows img ↔
      y < img.height ∧ ∃ x, x < img.width ∧ (img.px x y).a ≠ 0 := by
  simp [contentRows]

/-- The bounding box equals a given box as soon as the box contains every
non-transparent pixel and each of its four edges is attained. -/
theorem getbbox_eq_of (img : Image) {x0 x1 y0 y1 : Nat}
    (hx01 : x0 < x1) (hy01 : y0 < y1)
    (hx1w : x1 ≤ img.width) (hy1h : y1 ≤ img.height)
    (hcont : ∀ x y, x < img.width → y < img.height → (img.px x y).a ≠ 0 →
      x0 ≤ x ∧ x < x1 ∧ y0 ≤ y ∧ y < y1)
    (hax0 : ∃ y, y < img.height ∧ (img.px x0 y).a ≠ 0)
    (hax1 : ∃ y, y < img.height ∧ (img.px (x1 - 1) y).a ≠ 0)
    (hay0 : ∃ x, x < img.width ∧ (img.px x y0).a ≠ 0)
    (hay1 : ∃ x, x < img.width ∧ (img.px x (y1 - 1)).a ≠ 0) :
    getbbox img = some (x0, y0, x1, y1) := by
  have hx0w : x0 < img.width := lt_of_lt_of_le hx01 hx1w
  have hy0h : y0 < img.height := lt_of_lt_of_le hy01 hy1h
  have hx1w' : x1 - 1 < img.width := by omega
  have hy1h' : y1 - 1 < img.height := by omega
  have hx0mem : x0 ∈ contentCols img := mem_contentCols.2 ⟨hx0w, hax0⟩
  have hx1mem : x1 - 1 ∈ contentCols img := mem_contentCols.2 ⟨hx1w', hax1⟩
  have hy0mem : y0 ∈ contentRows img := by
    obtain ⟨x, hx, ha⟩ := hay0
    exact mem_contentRows.2 ⟨hy0h, x, hx, ha⟩
  have hy1mem : y1 - 1 ∈ contentRows img := by
    obtain ⟨x, hx, ha⟩ := hay1
    exact mem_contentRows.2 ⟨hy1h', x, hx, ha⟩
  have hcne : (contentCols img).Nonempty := ⟨x0, hx0mem⟩
  have hrne : (contentRows img).Nonempty := ⟨y0, hy0mem⟩
  have hminc : ∀ hne, (contentCols img).min' hne = x0 := by
    intro hne
    refine le_antisymm (Finset.min'_le _ _ hx0mem) (Finset.le_min' _ _ _ ?_)
    intro c hc
    obtain ⟨hcw, y, hy, ha⟩ := mem_contentCols.1 hc
    exact (hcont c y hcw hy ha).1
  have hmaxc : ∀ hne, (contentCols img).max' hne = x1 - 1 := by
    intro hne
    refine le_antisymm (Finset.max'_le _ _ _ ?_) (Finset.le_max' _ _ hx1mem)
    intro c hc
    obtain ⟨hcw, y, hy, ha⟩ := mem_contentCols.1 hc
    have := (hcont c y hcw hy ha).2.1
    omega
  have hminr : ∀ hne, (contentRows img).min' hne = y0 := by
    intro hne
    refine le_antisymm (Finset.min'_le _ _ hy0mem) (Finset.le_min' _ _ _ ?_)
    intro c hc
    obtain ⟨hch, x, hx, ha⟩ := mem_contentRows.1 hc
    exact (hcont x c hx hch ha).2.2.1
  have hmaxr : ∀ hne, (contentRows img).max' hne = y1 - 1 := by
    intro hne
    refine le_antisymm (Finset.max'_le _ _ _ ?_) (Finset.le_max' _ _ hy1mem)
    intro c hc
    obtain ⟨hch, x, hx, ha⟩ := mem_contentRows.1 hc
    have := (hcont x c hx hch ha).2.2.2
    omega
  unfold getbbox
  rw [dif_pos ⟨hcne, hrne⟩, hminc, hmaxc, hminr, hmaxr]
  have hx1p : x1 - 1 + 1 = x1 := by omega
  have hy1p : y1 - 1 + 1 = y1 := by omega
  rw [hx1p, hy1p]

/-- Bounding box of an image whose non-transparent pixels are exactly the
half-open box `[x0, x1) x [y0, y1)`. -/
theorem getbbox_rect (img : Image) {x0 x1 y0 y1 : Nat}
    (hx01 : x0 < x1) (hy01 : y0 < y1)
    (hx1w : x1 ≤ img.width) (hy1h : y1 ≤ img.height)
    (hiff : ∀ x y, x < img.width → y < img.height →
      ((img.px x y).a ≠ 0 ↔ x0 ≤ x ∧ x < x1 ∧ y0 ≤ y ∧ y < y1)) :
    getbbox img = some (x0, y0, x1, y1) := by
  have hx0w : x0 < img.width := lt_of_lt_of_le hx01 hx1w
  have hy0h : y0 < img.height := lt_of_lt_of_le hy01 hy1h
  have hx1w' : x1 - 1 < img.width := by omega
  have hy1h' : y1 - 1 < img.height := by omega
  refine getbbox_eq_of img hx01 hy01 hx1w hy1h
    (fun x y hx hy ha => (hiff x y hx hy).1 ha)
    ⟨y0, hy0h, (hiff x0 y0 hx0w hy0h).2 (by omega)⟩
    ⟨y0, hy0h, (hiff (x1 - 1) y0 hx1w' hy0h).2 (by omega)⟩
    ⟨x0, hx0w, (hiff x0 y0 hx0w hy0h).2 (by omega)⟩
    ⟨x0, hx0w, (hiff x0 (y1 - 1) hx0w hy1h').2 (by omega)⟩

/-- A computed bounding box contains every non-transparent pixel, attains all
four of its edges, and lies within the image bounds. -/
theorem getbbox_some_spec (img : Image) {l u r lo : Nat}
    (h : getbbox img = some (l, u, r, lo)) :
    (∀ x y, x < img.width → y < img.height → (img.px x y).a ≠ 0 →
      l ≤ x ∧ x < r ∧ u ≤ y ∧ y < lo) ∧
    (∃ y, y < img.height ∧ (img.px l y).a ≠ 0) ∧
    (∃ y, y < img.height ∧ (img.px (r - 1) y).a ≠ 0) ∧
    (∃ x, x < img.width ∧ (img.px x u).a ≠ 0) ∧
    (∃ x, x < img.width ∧ (img.px x (lo - 1)).a ≠ 0) ∧
    l < r ∧ r ≤ img.width ∧ u < lo ∧ lo ≤ img.height := by
  by_cases hne : (contentCols img).Nonempty ∧ (contentRows img).Nonempty
  · have hform : getbbox img =
        some ((contentCols img).min' hne.1, (contentRows img).min' hne.2,
          (contentCols img).max' hne.1 + 1, (contentRows img).max' hne.2 + 1) := by
      unfold getbbox
      rw [dif_pos hne]
    rw [h] at hform
    obtain ⟨h1, h2, h3, h4⟩ : l = (contentCols img).min' hne.1 ∧
        u = (contentRows img).min' hne.2 ∧
        r = (contentCols img).max' hne.1 + 1 ∧
        lo = (contentRows img).max' hne.2 + 1 := by
      have := Option.some.inj hform
      refine ⟨congrArg Prod.fst this, ?_, ?_, ?_⟩
      · exact congrArg (fun t => t.2.1) this
      · exact congrArg (fun t => t.2.2.1) this
      · exact congrArg (fun t => t.2.2.2) this
    subst h1 h2 h3 h4
    obtain ⟨hlw, hly⟩ := mem_contentCols.1 ((contentCols img).min'_mem hne.1)
    obtain ⟨hrw, hry⟩ := mem_contentCols.1 ((contentCols img).max'_mem hne.1)
    obtain ⟨huh, hux⟩ := mem_contentRows.1 ((contentRows img).min'_mem hne.2)
    obtain ⟨hloh, hlox⟩ := mem_contentRows.1 ((contentRows img).max'_mem hne.2)
    refine ⟨?_, hly, by simpa using hry, hux, by simpa using hlox, ?_, ?_, ?_, ?_⟩
    · intro x y hx hy ha
      have hxc : x ∈ contentCols img := mem_contentCols.2 ⟨hx, y, hy, ha⟩
      have hyc : y ∈ contentRows img := mem_contentRows.2 ⟨hy, x, hx, ha⟩
      have h1 := Finset.min'_le _ _ hxc
      have h2 := Finset.le_max' _ _ hxc
      have h3 := Finset.min'_le _ _ hyc
      have h4 := Finset.le_max' _ _ hyc
      omega
    · have := Finset.min'_le _ _ ((contentCols img).max'_mem hne.1)
      omega
    · omega
    · have := Finset.min'_le _ _ ((contentRows img).max'_mem hne.2)
      omega
    · omega
  · exfalso
    have : getbbox img = none := by
      unfold getbbox
      rw [dif_neg hne]
    rw [h] at this
    exact Option.some_ne_none _ this

/-- The bounding box is `None` exactly on fully transparent images. -/
theorem getbbox_eq_none_iff (img : Image) :
    getbbox img = none ↔
      ∀ x, x < img.width → ∀ y, y < img.height → (img.px x y).a = 0 := by
  constructor
  · intro h x hx y hy
    by_contra ha
    have hc : (contentCols img).Nonempty := ⟨x, mem_contentCols.2 ⟨hx, y, hy, ha⟩⟩
    have hr : (contentRows img).Nonempty := ⟨y, mem_contentRows.2 ⟨hy, x, hx, ha⟩⟩
    unfold getbbox at h
    rw [dif_pos ⟨hc, hr⟩] at h
    exact Option.some_ne_none _ h
  · intro h
    unfold getbbox
    rw [dif_neg]
    rintro ⟨⟨c, hc⟩, -⟩
    obtain ⟨hcw, y, hy, ha⟩ := mem_contentCols.1 hc
    exact ha (h c hcw y hy)

/-- A pixel of non-zero alpha guarantees a bounding box. -/
theorem getbbox_isSome_of (img : Image) (h : hasAlphaContent img) :
    ∃ l u r lo, getbbox img = some (l, u, r, lo) := by
  obtain ⟨x, hx, y, hy, ha⟩ := h
  have hc : (contentCols img).Nonempty := ⟨x, mem_contentCols.2 ⟨hx, y, hy, ha⟩⟩
  have hr : (contentRows img).Nonempty := ⟨y, mem_contentRows.2 ⟨hy, x, hx, ha⟩⟩
  unfold getbbox
  rw [dif_pos ⟨hc, hr⟩]
  exact ⟨_, _, _, _, rfl⟩

/-- Unfolding of the pipeline on an image with a bounding box. -/
theorem fix_eq_some (resample : Image → Nat → Nat → Image) (img0 : Image)
    {l u r lo : Nat} (h : getbbox (toRGBA img0) = some (l, u, r, lo)) :
    fix_icon_padding resample img0 =
      some (ImageFormat.PNG, pipelineResult resample img0 l u r lo) := by
  unfold fix_icon_padding
  rw [h]

/-- Unfolding of the pipeline on an image with no bounding box. -/
theorem fix_eq_none (resample : Image → Nat → Nat → Image) (img0 : Image)
    (h : getbbox (toRGBA img0) = none) :
    fix_icon_padding resample img0 = none := by
  unfold fix_icon_padding
  rw [h]

/-- The nearest-neighbour resampler produces the requested size. -/
theorem nearest_size : SizeContract nearestResample :=
  fun _ _ _ => ⟨rfl, rfl⟩

/-- The nearest-neighbour resampler is the identity at the current size. -/
theorem nearest_same_size : SameSizeId nearestResample := by
  intro src hw hh
  refine Image.ext rfl rfl rfl ?_
  funext x y
  show src.px (x * src.width / src.width) (y * src.height / src.height) = src.px x y
  rw [Nat.mul_div_cancel _ hw, Nat.mul_div_cancel _ hh]

/-- Blending anything with mask value 0 contributes nothing. -/
theorem muldiv255_zero_left (k : Nat) : muldiv255 0 k = 0 := by
  simp [muldiv255]

/-- Alpha deposited on a fully transparent canvas by a self-masked paste of a
`content_size`-square image at `(margin, margin)`. -/
theorem paste_canvas_alpha (R : Image)
    (hw : R.width = content_size) (hh : R.height = content_size) (x y : Nat) :
    ((paste (image_new target_size target_size) R margin margin R).px x y).a =
      if margin ≤ x ∧ x < margin + content_size ∧
          margin ≤ y ∧ y < margin + content_size then
        maskedAlpha R (x - margin) (y - margin)
      else 0 := by
  show (if margin ≤ x ∧ x < margin + R.width ∧ margin ≤ y ∧ y < margin + R.height
      then blendPixel ((R.px (x - margin) (y - margin)).a)
        ((image_new target_size target_size).px x y) (R.px (x - margin) (y - margin))
      else (image_new target_size target_size).px x y).a = _
  rw [hw, hh]
  split
  · show blend ((R.px (x - margin) (y - margin)).a) 0
        ((R.px (x - margin) (y - margin)).a) = _
    unfold blend maskedAlpha
    rw [muldiv255_zero_left]
    omega
  · rfl

/-- Bounding box of a self-masked paste of a `content_size`-square image at
`(margin, margin)` on the transparent `target_size` canvas: the full pasted
square, provided the blended alpha attains all four of its edges. -/
theorem getbbox_paste_canvas (R : Image)
    (hw : R.width = content_size) (hh : R.height = content_size)
    (hL : ∃ y, y < content_size ∧ maskedAlpha R 0 y ≠ 0)
    (hRt : ∃ y, y < content_size ∧ maskedAlpha R (content_size - 1) y ≠ 0)
    (hT : ∃ x, x < content_size ∧ maskedAlpha R x 0 ≠ 0)
    (hB : ∃ x, x < content_size ∧ maskedAlpha R x (content_size - 1) ≠ 0) :
    getbbox (paste (image_new target_size target_size) R margin margin R) =
      some (margin, margin, margin + content_size, margin + content_size) := by
  have hcs : content_size = 921 := by decide
  have hm : margin = 51 := by decide
  have hwidth :
      (paste (image_new target_size target_size) R margin margin R).width =
        target_size := rfl
  have hheight :
      (paste (image_new target_size target_size) R margin margin R).height =
        target_size := rfl
  refine getbbox_eq_of _ (by omega) (by omega)
    (by rw [hwidth]; unfold target_size; omega)
    (by rw [hheight]; unfold target_size; omega) ?_ ?_ ?_ ?_ ?_
  · intro x y hx hy ha
    rw [paste_canvas_alpha R hw hh] at ha
    by_cases hreg : margin ≤ x ∧ x < margin + content_size ∧
        margin ≤ y ∧ y < margin + content_size
    · omega
    · rw [if_neg hreg] at ha
      exact absurd rfl ha
  · obtain ⟨y, hy, ha⟩ := hL
    refine ⟨margin + y, by rw [hheight]; unfold target_size; omega, ?_⟩
    rw [paste_canvas_alpha R hw hh, if_pos (by omega)]
    have h1 : margin - margin = 0 := by omega
    have h2 : margin + y - margin = y := by omega
    rw [h1, h2]
    exact ha
  · obtain ⟨y, hy, ha⟩ := hRt
    refine ⟨margin + y, by rw [hheight]; unfold target_size; omega, ?_⟩
    rw [paste_canvas_alpha R hw hh, if_pos (by omega)]
    have h1 : margin + content_size - 1 - margin = content_size - 1 := by omega
    have h2 : margin + y - margin = y := by omega
    rw [h1, h2]
    exact ha
  · obtain ⟨x, hx, ha⟩ := hT
    refine ⟨margin + x, by rw [hwidth]; unfold target_size; omega, ?_⟩
    rw [paste_canvas_alpha R hw hh, if_pos (by omega)]
    have h1 : margin + x - margin = x := by omega
    have h2 : margin - margin = 0 := by omega
    rw [h1, h2]
    exact ha
  · obtain ⟨x, hx, ha⟩ := hB
    refine ⟨margin + x, by rw [hwidth]; unfold target_size; omega, ?_⟩
    rw [paste_canvas_alpha R hw hh, if_pos (by omega)]
    have h1 : margin + x - margin = x := by omega
    have h2 : margin + content_size - 1 - margin = content_size - 1 := by omega
    rw [h1, h2]
    exact ha

/-- An RGBA-mode image is untouched by the mode check of lines 17-18. -/
theorem toRGBA_of_rgba (img : Image) (h : img.mode = Mode.RGBA) :
    toRGBA img = img := by
  unfold toRGBA
  rw [if_pos h]

/-- Bounding box of the 512 x 512 scenario image. -/
theorem getbbox_scenario512 : getbbox scenario512 = some (100, 100, 400, 400) := by
  refine getbbox_rect _ (by omega) (by omega) (by decide) (by decide) ?_
  intro x y hx hy
  by_cases hc : 100 ≤ x ∧ x < 400 ∧ 100 ≤ y ∧ y < 400
  · show ((if 100 ≤ x ∧ x < 400 ∧ 100 ≤ y ∧ y < 400 then
        (⟨255, 255, 255, 255⟩ : Pixel) else ⟨0, 0, 0, 0⟩).a ≠ 0) ↔ _
    rw [if_pos hc]
    simp [hc]
  · show ((if 100 ≤ x ∧ x < 400 ∧ 100 ≤ y ∧ y < 400 then
        (⟨255, 255, 255, 255⟩ : Pixel) else ⟨0, 0, 0, 0⟩).a ≠ 0) ↔ _
    rw [if_neg hc]
    simp [hc]

/-- Bounding box of the uniform half-transparent 921 x 921 image. -/
theorem getbbox_gray921 : getbbox gray921 = some (0, 0, 921, 921) := by
  refine getbbox_rect _ (by omega) (by omega) (by decide) (by decide) ?_
  intro x y hx hy
  have hx' : x < 921 := hx
  have hy' : y < 921 := hy
  constructor
  · intro _
    omega
  · intro _
    show (128 : Nat) ≠ 0
    decide

/-- C1: for every input image containing at least one non-transparent pixel
(a pixel of non-zero alpha once the image is in RGBA mode), the adjust
operation succeeds and the written output image has dimensions exactly
1024 x 1024, is in RGBA mode, and is encoded as PNG. -/
theorem spec_C1_output_png_1024_rgba (resample : Image → Nat → Nat → Image)
    (img0 : Image) (h : hasAlphaContent (toRGBA img0)) :
    ∃ out : Image,
      fix_icon_padding resample img0 = some (ImageFormat.PNG, out) ∧
      out.width = 1024 ∧ out.height = 1024 ∧ out.mode = Mode.RGBA := by
  obtain ⟨l, u, r, lo, hbb⟩ := getbbox_isSome_of _ h
  exact ⟨pipelineResult resample img0 l u r lo,
    fix_eq_some resample img0 hbb, rfl, rfl, rfl⟩

/-- Witness for C1 at the opaque 1 x 1 image and the concrete resampler. -/
theorem spec_C1_witness :
    hasAlphaContent (toRGBA sample1) ∧
    ∃ out : Image,
      fix_icon_padding nearestResample sample1 = some (ImageFormat.PNG, out) ∧
      out.width = 1024 ∧ out.height = 1024 ∧ out.mode = Mode.RGBA := by
  have h : hasAlphaContent (toRGBA sample1) := ⟨0, by decide, 0, by decide, by decide⟩
  exact ⟨h, spec_C1_output_png_1024_rgba nearestResample sample1 h⟩

/-- C3: the computed bounding box is the minimal rectangle containing all
pixels of non-zero alpha (it contains them all and attains each of its four
edges), and on a fully transparent image the operation fails - `getbbox` is
`None` and `fix_icon_padding` returns `none`, modelling `return False` with
no output write. -/
theorem spec_C3_bbox_minimal_transparent_fails :
    (∀ (img : Image) (l u r lo : Nat), getbbox img = some (l, u, r, lo) →
      (∀ x y, x < img.width → y < img.height → (img.px x y).a ≠ 0 →
        l ≤ x ∧ x < r ∧ u ≤ y ∧ y < lo) ∧
      (∃ y, y < img.height ∧ (img.px l y).a ≠ 0) ∧
      (∃ y, y < img.height ∧ (img.px (r - 1) y).a ≠ 0) ∧
      (∃ x, x < img.width ∧ (img.px x u).a ≠ 0) ∧
      (∃ x, x < img.width ∧ (img.px x (lo - 1)).a ≠ 0)) ∧
    (∀ (resample : Image → Nat → Nat → Image) (img0 : Image),
      (∀ x, x < (toRGBA img0).width → ∀ y, y < (toRGBA img0).height →
        ((toRGBA img0).px x y).a = 0) →
      getbbox (toRGBA img0) = none ∧ fix_icon_padding resample img0 = none) := by
  constructor
  · intro img l u r lo h
    obtain ⟨h1, h2, h3, h4, h5, -⟩ := getbbox_some_spec img h
    exact ⟨h1, h2, h3, h4, h5⟩
  · intro resample img0 h
    have hn : getbbox (toRGBA img0) = none := (getbbox_eq_none_iff _).2 h
    exact ⟨hn, fix_eq_none resample img0 hn⟩

/-- Witness for C3 at the opaque 1 x 1 image (minimality side) and the fully
transparent 2 x 2 image (failure side). -/
theorem spec_C3_witness :
    getbbox sample1 = some (0, 0, 1, 1) ∧
    ((∀ x y, x < sample1.width → y < sample1.height → (sample1.px x y).a ≠ 0 →
        0 ≤ x ∧ x < 1 ∧ 0 ≤ y ∧ y < 1) ∧
      (∃ y, y < sample1.height ∧ (sample1.px 0 y).a ≠ 0) ∧
      (∃ y, y < sample1.height ∧ (sample1.px (1 - 1) y).a ≠ 0) ∧
      (∃ x, x < sample1.width ∧ (sample1.px x 0).a ≠ 0) ∧
      (∃ x, x < sample1.width ∧ (sample1.px x (1 - 1)).a ≠ 0)) ∧
    (∀ x, x < (toRGBA transparent2).width → ∀ y, y < (toRGBA transparent2).height →
      ((toRGBA transparent2).px x y).a = 0) ∧
    getbbox (toRGBA transparent2) = none ∧
    fix_icon_padding nearestResample transparent2 = none := by
  have h1 : getbbox sample1 = some (0, 0, 1, 1) := by decide
  have h2 : ∀ x, x < (toRGBA transparent2).width →
      ∀ y, y < (toRGBA transparent2).height →
      ((toRGBA transparent2).px x y).a = 0 := by decide
  obtain ⟨hn, hf⟩ :=
    spec_C3_bbox_minimal_transparent_fails.2 nearestResample transparent2 h2
  exact ⟨h1, spec_C3_bbox_minimal_transparent_fails.1 sample1 0 0 1 1 h1, h2, hn, hf⟩

/-- C4: for every non-empty cropped region, whatever its width and height,
the pipeline resizes it to `content_size x content_size`, allocates a new
fully transparent `target_size x target_size` canvas, and pastes the resized
content at `(margin, margin)` with the resized content itself as the paste
mask (its alpha channel drives the blend). -/
theorem spec_C4_resize_canvas_paste (resample : Image → Nat → Nat → Image)
    (hsz : SizeContract resample) (img0 : Image) (l u r lo : Nat)
    (h : getbbox (toRGBA img0) = some (l, u, r, lo)) :
    fix_icon_padding resample img0 =
      some (ImageFormat.PNG, pipelineResult resample img0 l u r lo) ∧
    pipelineResult resample img0 l u r lo =
      paste (image_new target_size target_size)
        (resample (crop (toRGBA img0) l u r lo) content_size content_size)
        margin margin
        (resample (crop (toRGBA img0) l u r lo) content_size content_size) ∧
    (resample (crop (toRGBA img0) l u r lo) content_size content_size).width =
      content_size ∧
    (resample (crop (toRGBA img0) l u r lo) content_size content_size).height =
      content_size ∧
    (∀ x y, (image_new target_size target_size).px x y = ⟨0, 0, 0, 0⟩) :=
  ⟨fix_eq_some resample img0 h, rfl, (hsz _ _ _).1, (hsz _ _ _).2, fun _ _ => rfl⟩

/-- Witness for C4 at the opaque 1 x 1 image and the concrete resampler. -/
theorem spec_C4_witness :
    SizeContract nearestResample ∧
    getbbox (toRGBA sample1) = some (0, 0, 1, 1) ∧
    (fix_icon_padding nearestResample sample1 =
      some (ImageFormat.PNG, pipelineResult nearestResample sample1 0 0 1 1) ∧
    pipelineResult nearestResample sample1 0 0 1 1 =
      paste (image_new target_size target_size)
        (nearestResample (crop (toRGBA sample1) 0 0 1 1) content_size content_size)
        margin margin
        (nearestResample (crop (toRGBA sample1) 0 0 1 1) content_size content_size) ∧
    (nearestResample (crop (toRGBA sample1) 0 0 1 1) content_size content_size).width =
      content_size ∧
    (nearestResample (crop (toRGBA sample1) 0 0 1 1) content_size content_size).height =
      content_size ∧
    (∀ x y, (image_new target_size target_size).px x y = ⟨0, 0, 0, 0⟩)) := by
  have h : getbbox (toRGBA sample1) = some (0, 0, 1, 1) := by decide
  exact ⟨nearest_size, h,
    spec_C4_resize_canvas_paste nearestResample nearest_size sample1 0 0 1 1 h⟩

/-- C5: the computed content size is `int(1024 * 0.90) = 921` and the
computed paste margin is `(1024 - 921) // 2 = 51`. -/
theorem spec_C5_constants :
    content_size = target_size * 90 / 100 ∧ content_size = 921 ∧
    margin = (target_size - content_size) / 2 ∧ margin = 51 :=
  ⟨rfl, by decide, rfl, by decide⟩

/-- C9: an input whose mode has no alpha channel (the non-RGBA modes of the
model) is converted with every pixel fully opaque, so the bounding box is
the whole image and the operation never fails with "no content found", even
for an all-black image. -/
theorem spec_C9_convert_opaque_never_fails (resample : Image → Nat → Nat → Image)
    (img0 : Image) (hm : img0.mode ≠ Mode.RGBA)
    (hw : 0 < img0.width) (hh : 0 < img0.height) :
    (∀ x y, ((toRGBA img0).px x y).a = 255) ∧
    getbbox (toRGBA img0) = some (0, 0, img0.width, img0.height) ∧
    (fix_icon_padding resample img0).isSome = true := by
  have ht : toRGBA img0 = convert_RGBA img0 := by
    unfold toRGBA
    rw [if_neg hm]
  have hW : (toRGBA img0).width = img0.width := by rw [ht]; rfl
  have hH : (toRGBA img0).height = img0.height := by rw [ht]; rfl
  have hpx : ∀ x y, ((toRGBA img0).px x y).a = 255 := by
    intro x y
    rw [ht]
    rfl
  have hbb : getbbox (toRGBA img0) = some (0, 0, img0.width, img0.height) := by
    refine getbbox_rect _ hw hh (le_of_eq hW.symm) (le_of_eq hH.symm) ?_
    intro x y hx hy
    rw [hpx, hW] at *
    constructor
    · intro _
      rw [hW] at hx
      rw [hH] at hy
      omega
    · intro _
      decide
  refine ⟨hpx, hbb, ?_⟩
  rw [fix_eq_some resample img0 hbb]
  rfl

/-- Witness for C9 at the all-black 2 x 2 RGB image. -/
theorem spec_C9_witness :
    blackRGB2.mode ≠ Mode.RGBA ∧ 0 < blackRGB2.width ∧ 0 < blackRGB2.height ∧
    ((∀ x y, ((toRGBA blackRGB2).px x y).a = 255) ∧
      getbbox (toRGBA blackRGB2) = some (0, 0, blackRGB2.width, blackRGB2.height) ∧
      (fix_icon_padding nearestResample blackRGB2).isSome = true) :=
  ⟨by decide, by decide, by decide,
    spec_C9_convert_opaque_never_fails nearestResample blackRGB2
      (by decide) (by decide) (by decide)⟩

/-- C10: the paste region lies fully inside the canvas
(`margin + content_size = 972 ≤ 1024`), every pixel outside it stays fully
transparent, and a computed crop box always lies within the bounds of the
image it was computed from. -/
theorem spec_C10_paste_and_crop_in_bounds :
    margin + content_size = 972 ∧ margin + content_size ≤ target_size ∧
    (∀ (img : Image) (l u r lo : Nat), getbbox img = some (l, u, r, lo) →
      l < r ∧ r ≤ img.width ∧ u < lo ∧ lo ≤ img.height) ∧
    (∀ (R : Image) (x y : Nat), R.width = content_size → R.height = content_size →
      x < margin ∨ y < margin ∨ margin + content_size ≤ x ∨ margin + content_size ≤ y →
      (paste (image_new target_size target_size) R margin margin R).px x y =
        ⟨0, 0, 0, 0⟩) := by
  refine ⟨by decide, by decide, ?_, ?_⟩
  · intro img l u r lo h
    obtain ⟨-, -, -, -, -, hb⟩ := getbbox_some_spec img h
    exact hb
  · intro R x y hw hh hout
    show (if margin ≤ x ∧ x < margin + R.width ∧ margin ≤ y ∧ y < margin + R.height
        then _ else (image_new target_size target_size).px x y) = _
    rw [hw, hh, if_neg (by omega)]
    rfl

/-- Witness for C10 at the opaque 1 x 1 image and a transparent
`content_size`-square paste source, evaluated at pixel `(0, 0)`. -/
theorem spec_C10_witness :
    getbbox sample1 = some (0, 0, 1, 1) ∧
    (0 < 1 ∧ 1 ≤ sample1.width ∧ 0 < 1 ∧ 1 ≤ sample1.height) ∧
    ((image_new content_size content_size).width = content_size ∧
      (image_new content_size content_size).height = content_size ∧
      (0 : Nat) < margin) ∧
    (paste (image_new target_size target_size) (image_new content_size content_size)
      margin margin (image_new content_size content_size)).px 0 0 = ⟨0, 0, 0, 0⟩ := by
  have h : getbbox sample1 = some (0, 0, 1, 1) := by decide
  exact ⟨h, spec_C10_paste_and_crop_in_bounds.2.2.1 sample1 0 0 1 1 h,
    ⟨rfl, rfl, by decide⟩,
    spec_C10_paste_and_crop_in_bounds.2.2.2 (image_new content_size content_size)
      0 0 rfl rfl (Or.inl (by decide))⟩

/-- C6: on the 512 x 512 input whose opaque content occupies the box
`(100, 100) - (400, 400)` (Pillow box convention, right and lower exclusive)
and which is transparent elsewhere, the bounding box is
`(100, 100, 400, 400)`, the crop is 300 x 300, the resized content is
921 x 921, it is pasted onto a new fully transparent 1024 x 1024 canvas at
offset `(51, 51)`, and the output is saved as PNG. -/
theorem spec_C6_scenario (resample : Image → Nat → Nat → Image)
    (hsz : SizeContract resample) :
    getbbox (toRGBA scenario512) = some (100, 100, 400, 400) ∧
    (crop (toRGBA scenario512) 100 100 400 400).width = 300 ∧
    (crop (toRGBA scenario512) 100 100 400 400).height = 300 ∧
    (resample (crop (toRGBA scenario512) 100 100 400 400)
      content_size content_size).width = 921 ∧
    (resample (crop (toRGBA scenario512) 100 100 400 400)
      content_size content_size).height = 921 ∧
    target_size = 1024 ∧ margin = 51 ∧
    (∀ x y, (image_new target_size target_size).px x y = ⟨0, 0, 0, 0⟩) ∧
    fix_icon_padding resample scenario512 =
      some (ImageFormat.PNG, pipelineResult resample scenario512 100 100 400 400) ∧
    pipelineResult resample scenario512 100 100 400 400 =
      paste (image_new target_size target_size)
        (resample (crop (toRGBA scenario512) 100 100 400 400)
          content_size content_size)
        margin margin
        (resample (crop (toRGBA scenario512) 100 100 400 400)
          content_size content_size) := by
  have ht : toRGBA scenario512 = scenario512 := toRGBA_of_rgba _ rfl
  have hbb : getbbox (toRGBA scenario512) = some (100, 100, 400, 400) := by
    rw [ht]
    exact getbbox_scenario512
  refine ⟨hbb, by decide, by decide, ?_, ?_, rfl, by decide, fun _ _ => rfl,
    fix_eq_some resample scenario512 hbb, rfl⟩
  · exact ((hsz _ _ _).1).trans (by decide)
  · exact ((hsz _ _ _).2).trans (by decide)

/-- Witness for C6 at the concrete resampler. -/
theorem spec_C6_witness :
    SizeContract nearestResample ∧
    (getbbox (toRGBA scenario512) = some (100, 100, 400, 400) ∧
    (crop (toRGBA scenario512) 100 100 400 400).width = 300 ∧
    (crop (toRGBA scenario512) 100 100 400 400).height = 300 ∧
    (nearestResample (crop (toRGBA scenario512) 100 100 400 400)
      content_size content_size).width = 921 ∧
    (nearestResample (crop (toRGBA scenario512) 100 100 400 400)
      content_size content_size).height = 921 ∧
    target_size = 1024 ∧ margin = 51 ∧
    (∀ x y, (image_new target_size target_size).px x y = ⟨0, 0, 0, 0⟩) ∧
    fix_icon_padding nearestResample scenario512 =
      some (ImageFormat.PNG,
        pipelineResult nearestResample scenario512 100 100 400 400) ∧
    pipelineResult nearestResample scenario512 100 100 400 400 =
      paste (image_new target_size target_size)
        (nearestResample (crop (toRGBA scenario512) 100 100 400 400)
          content_size content_size)
        margin margin
        (nearestResample (crop (toRGBA scenario512) 100 100 400 400)
          content_size content_size)) :=
  ⟨nearest_size, spec_C6_scenario nearestResample nearest_size⟩

/-- C2 (counterexample): at the opaque 1 x 1 input with the concrete
resampler, the run succeeds and the non-transparent content of the output is
exactly the box `(51, 51, 972, 972)`: its side is 921 and its left/top
margins are 51, but its right/bottom margins are `1024 - 972 = 52`, so the
margins are not equal on all four sides (and no integer margin equals 5% of
1024 = 51.2). -/
theorem spec_C2_counterexample :
    (fix_icon_padding nearestResample sample1).map (fun out => getbbox out.2) =
      some (some (51, 51, 972, 972)) ∧
    target_size - 972 = 52 ∧ (52 : Nat) ≠ 51 := by
  have hbb : getbbox (toRGBA sample1) = some (0, 0, 1, 1) := by decide
  have h921 : getbbox (pipelineResult nearestResample sample1 0 0 1 1) =
      some (margin, margin, margin + content_size, margin + content_size) :=
    getbbox_paste_canvas _ rfl rfl ⟨0, by decide, by decide⟩
      ⟨0, by decide, by decide⟩ ⟨0, by decide, by decide⟩ ⟨0, by decide, by decide⟩
  refine ⟨?_, by decide, by decide⟩
  rw [fix_eq_some nearestResample sample1 hbb, Option.map_some', h921]
  decide

/-- C2 (amended): for every successful run whose resized content deposits
non-zero blended alpha on all four edges of the pasted square, the composited
content of the output occupies exactly the square of side
`content_size = 921` at offset `(margin, margin) = (51, 51)`: the left and
top margins are 51 pixels while the right and bottom margins are
`1024 - 972 = 52` pixels - as centered as the integer margin allows, but not
an equal margin on all four sides. -/
theorem spec_C2_amended_margins (resample : Image → Nat → Nat → Image)
    (hsz : SizeContract resample) (img0 : Image) (l u r lo : Nat)
    (h : getbbox (toRGBA img0) = some (l, u, r, lo))
    (hL : ∃ y, y < content_size ∧ maskedAlpha
      (resample (crop (toRGBA img0) l u r lo) content_size content_size) 0 y ≠ 0)
    (hRt : ∃ y, y < content_size ∧ maskedAlpha
      (resample (crop (toRGBA img0) l u r lo) content_size content_size)
      (content_size - 1) y ≠ 0)
    (hT : ∃ x, x < content_size ∧ maskedAlpha
      (resample (crop (toRGBA img0) l u r lo) content_size content_size) x 0 ≠ 0)
    (hB : ∃ x, x < content_size ∧ maskedAlpha
      (resample (crop (toRGBA img0) l u r lo) content_size content_size) x
      (content_size - 1) ≠ 0) :
    fix_icon_padding resample img0 =
      some (ImageFormat.PNG, pipelineResult resample img0 l u r lo) ∧
    getbbox (pipelineResult resample img0 l u r lo) =
      some (margin, margin, margin + content_size, margin + content_size) ∧
    margin = 51 ∧ content_size = 921 ∧ margin + content_size = 972 ∧
    target_size - (margin + content_size) = 52 := by
  refine ⟨fix_eq_some resample img0 h, ?_, by decide, by decide, by decide, by decide⟩
  exact getbbox_paste_canvas _ (hsz _ _ _).1 (hsz _ _ _).2 hL hRt hT hB

/-- Witness for the amended C2 at the opaque 1 x 1 image and the concrete
resampler. -/
theorem spec_C2_amended_witness :
    SizeContract nearestResample ∧
    getbbox (toRGBA sample1) = some (0, 0, 1, 1) ∧
    (∃ y, y < content_size ∧ maskedAlpha
      (nearestResample (crop (toRGBA sample1) 0 0 1 1) content_size content_size)
      0 y ≠ 0) ∧
    (∃ y, y < content_size ∧ maskedAlpha
      (nearestResample (crop (toRGBA sample1) 0 0 1 1) content_size content_size)
      (content_size - 1) y ≠ 0) ∧
    (∃ x, x < content_size ∧ maskedAlpha
      (nearestResample (crop (toRGBA sample1) 0 0 1 1) content_size content_size)
      x 0 ≠ 0) ∧
    (∃ x, x < content_size ∧ maskedAlpha
      (nearestResample (crop (toRGBA sample1) 0 0 1 1) content_size content_size)
      x (content_size - 1) ≠ 0) ∧
    (fix_icon_padding nearestResample sample1 =
      some (ImageFormat.PNG, pipelineResult nearestResample sample1 0 0 1 1) ∧
    getbbox (pipelineResult nearestResample sample1 0 0 1 1) =
      some (margin, margin, margin + content_size, margin + content_size) ∧
    margin = 51 ∧ content_size = 921 ∧ margin + content_size = 972 ∧
    target_size - (margin + content_size) = 52) := by
  have hbb : getbbox (toRGBA sample1) = some (0, 0, 1, 1) := by decide
  have hL : ∃ y, y < content_size ∧ maskedAlpha
      (nearestResample (crop (toRGBA sample1) 0 0 1 1) content_size content_size)
      0 y ≠ 0 := ⟨0, by decide, by decide⟩
  have hRt : ∃ y, y < content_size ∧ maskedAlpha
      (nearestResample (crop (toRGBA sample1) 0 0 1 1) content_size content_size)
      (content_size - 1) y ≠ 0 := ⟨0, by decide, by decide⟩
  have hT : ∃ x, x < content_size ∧ maskedAlpha
      (nearestResample (crop (toRGBA sample1) 0 0 1 1) content_size content_size)
      x 0 ≠ 0 := ⟨0, by decide, by decide⟩
  have hB : ∃ x, x < content_size ∧ maskedAlpha
      (nearestResample (crop (toRGBA sample1) 0 0 1 1) content_size content_size)
      x (content_size - 1) ≠ 0 := ⟨0, by decide, by decide⟩
  exact ⟨nearest_size, hbb, hL, hRt, hT, hB,
    spec_C2_amended_margins nearestResample nearest_size sample1 0 0 1 1
      hbb hL hRt hT hB⟩

/-- When the resized content equals the crop (the same-size case), the
pipeline output is the crop pasted directly. -/
theorem pipelineResult_eq (resample : Image → Nat → Nat → Image) (img0 : Image)
    (l u r lo : Nat)
    (h : resample (crop (toRGBA img0) l u r lo) content_size content_size =
      crop (toRGBA img0) l u r lo) :
    pipelineResult resample img0 l u r lo =
      paste (image_new target_size target_size) (crop (toRGBA img0) l u r lo)
        margin margin (crop (toRGBA img0) l u r lo) := by
  unfold pipelineResult
  rw [h]

/-- C8: idempotence fails.  On the uniform half-transparent 921 x 921 input,
both runs resize a 921 x 921 crop to 921 x 921 - which Pillow returns
unchanged whatever the filter - yet the self-masked paste attenuates the
alpha (`muldiv255 a a`: 128 becomes 64, 64 becomes 16), so the second run
on the first run's output produces a different image. -/
theorem spec_C8_not_idempotent (resample : Image → Nat → Nat → Image)
    (hid : SameSizeId resample) :
    ∃ out1 out2 : Image,
      fix_icon_padding resample gray921 = some (ImageFormat.PNG, out1) ∧
      fix_icon_padding resample out1 = some (ImageFormat.PNG, out2) ∧
      out1 ≠ out2 := by
  have ht1 : toRGBA gray921 = gray921 := toRGBA_of_rgba _ rfl
  have hbb1 : getbbox (toRGBA gray921) = some (0, 0, 921, 921) := by
    rw [ht1]
    exact getbbox_gray921
  have hcrop1 : crop (toRGBA gray921) 0 0 921 921 = gray921 := by
    rw [ht1]
    refine Image.ext rfl rfl rfl ?_
    funext x y
    rfl
  have hres1 : resample (crop (toRGBA gray921) 0 0 921 921)
      content_size content_size = crop (toRGBA gray921) 0 0 921 921 := by
    rw [hcrop1]
    exact hid gray921 (by decide) (by decide)
  have hout1 : pipelineResult resample gray921 0 0 921 921 =
      paste (image_new target_size target_size) gray921 margin margin gray921 := by
    rw [pipelineResult_eq resample gray921 0 0 921 921 hres1, hcrop1]
  have ht2 : toRGBA (pipelineResult resample gray921 0 0 921 921) =
      pipelineResult resample gray921 0 0 921 921 := toRGBA_of_rgba _ rfl
  have hbb2 : getbbox (toRGBA (pipelineResult resample gray921 0 0 921 921)) =
      some (51, 51, 972, 972) := by
    rw [ht2, hout1]
    rw [getbbox_paste_canvas gray921 rfl rfl ⟨0, by decide, by decide⟩
      ⟨0, by decide, by decide⟩ ⟨0, by decide, by decide⟩ ⟨0, by decide, by decide⟩]
    decide
  have hres2 : resample
      (crop (toRGBA (pipelineResult resample gray921 0 0 921 921)) 51 51 972 972)
      content_size content_size =
      crop (toRGBA (pipelineResult resample gray921 0 0 921 921)) 51 51 972 972 :=
    hid (crop (toRGBA (pipelineResult resample gray921 0 0 921 921)) 51 51 972 972)
      (by show (0 : Nat) < 972 - 51; decide) (by show (0 : Nat) < 972 - 51; decide)
  have hout2 : pipelineResult resample (pipelineResult resample gray921 0 0 921 921)
      51 51 972 972 =
      paste (image_new target_size target_size)
        (crop (toRGBA (pipelineResult resample gray921 0 0 921 921)) 51 51 972 972)
        margin margin
        (crop (toRGBA (pipelineResult resample gray921 0 0 921 921)) 51 51 972 972) :=
    pipelineResult_eq resample (pipelineResult resample gray921 0 0 921 921)
      51 51 972 972 hres2
  have hA1 : ((pipelineResult resample gray921 0 0 921 921).px 51 51).a = 64 := by
    rw [hout1, paste_canvas_alpha gray921 rfl rfl, if_pos (by decide)]
    show muldiv255 128 128 = 64
    decide
  have hc00 : ((crop (toRGBA (pipelineResult resample gray921 0 0 921 921))
      51 51 972 972).px 0 0).a = 64 := by
    show ((toRGBA (pipelineResult resample gray921 0 0 921 921)).px
      (51 + 0) (51 + 0)).a = 64
    rw [ht2]
    exact hA1
  have hA2 : ((pipelineResult resample (pipelineResult resample gray921 0 0 921 921)
      51 51 972 972).px 51 51).a = 16 := by
    rw [hout2, paste_canvas_alpha _ rfl rfl, if_pos (by decide)]
    show muldiv255
      ((crop (toRGBA (pipelineResult resample gray921 0 0 921 921))
        51 51 972 972).px 0 0).a
      ((crop (toRGBA (pipelineResult resample gray921 0 0 921 921))
        51 51 972 972).px 0 0).a = 16
    rw [hc00]
    decide
  refine ⟨pipelineResult resample gray921 0 0 921 921,
    pipelineResult resample (pipelineResult resample gray921 0 0 921 921)
      51 51 972 972,
    fix_eq_some resample gray921 hbb1,
    fix_eq_some resample (pipelineResult resample gray921 0 0 921 921) hbb2, ?_⟩
  intro heq
  have h6416 : ((pipelineResult resample gray921 0 0 921 921).px 51 51).a =
      ((pipelineResult resample (pipelineResult resample gray921 0 0 921 921)
        51 51 972 972).px 51 51).a :=
    congrArg (fun im => (im.px 51 51).a) heq
  rw [hA1, hA2] at h6416
  exact absurd h6416 (by decide)

/-- Witness for C8 at the concrete resampler. -/
theorem spec_C8_witness :
    SameSizeId nearestResample ∧
    ∃ out1 out2 : Image,
      fix_icon_padding nearestResample gray921 = some (ImageFormat.PNG, out1) ∧
      fix_icon_padding nearestResample out1 = some (ImageFormat.PNG, out2) ∧
      out1 ≠ out2 :=
  ⟨nearest_same_size, spec_C8_not_idempotent nearestResample nearest_same_size⟩

